import Mathlib

/-
Verification of the pydle IRC session layer (src/pydle/client.py).

This file shallowly embeds the data model and the operations of
`BasicClient` and `ClientPool`:

* Python dicts (`self.channels`, `self.users`) become association lists
  with Python's insertion-order/overwrite-in-place semantics (`alSet`,
  `alGet`, `alErase`).
* Python sets of nicknames become duplicate-free string lists (`setAdd`,
  `setDiscard`); membership order is not significant and theorems compare
  member sets extensionally.
* Exceptions become an explicit `PyErr` value returned next to the state;
  where the source mutates state before raising, the returned state is the
  partially mutated one.
* The external transport and codec (the `connection` and `protocol`
  modules are collaborators, not part of the source under verification)
  are represented by an opaque connection record and by message lists that
  stand for the already-framed contents of the receive buffer.
-/

namespace Pydle

/-- Python `str.lower()` (character-wise, as used on ASCII command names
and nicknames). -/
def strLower (s : String) : String := String.mk (s.data.map Char.toLower)

/-- Python `c in s` for a single character. -/
def pyIn (c : Char) (s : String) : Bool := s.data.contains c

/-- Python dict lookup `d[k]` (as an option). -/
def alGet : List (String × α) → String → Option α
  | [], _ => none
  | p :: rest, k => if p.1 == k then some p.2 else alGet rest k

/-- Python dict assignment `d[k] = v`: overwrite in place, else append. -/
def alSet : List (String × α) → String → α → List (String × α)
  | [], k, v => [(k, v)]
  | p :: rest, k, v => if p.1 == k then (k, v) :: rest else p :: alSet rest k v

/-- Python dict deletion `del d[k]` (keys are unique, filtering is safe). -/
def alErase : List (String × α) → String → List (String × α)
  | [], _ => []
  | p :: rest, k => if p.1 == k then alErase rest k else p :: alErase rest k

/-- Python `set.add`. -/
def setAdd (x : String) (l : List String) : List String :=
  if l.contains x then l else l ++ [x]

/-- Python `set.discard`. -/
def setDiscard (x : String) (l : List String) : List String :=
  l.filter (fun y => y != x)

/-- The exceptions the embedded code can raise. -/
inductive PyErr where
  | valueError
  | keyError
  | typeError
  | indexError
  | recursionError
deriving DecidableEq, Repr

/-- An entry of `self.users`: `{'nickname': ..., 'username': None, ...}`. -/
structure User where
  nickname : String
  username : Option String
  realname : Option String
  hostname : Option String
deriving DecidableEq, Repr

/-- An entry of `self.channels`: `{'users': set()}`. -/
structure Channel where
  users : List String
deriving DecidableEq, Repr

/-- The opaque transport handle (`connection.Connection`). -/
structure Conn where
  hostname : Option String
  port : Nat
  connected : Bool
deriving DecidableEq, Repr

/-- The mutable attributes of a `BasicClient` instance. -/
structure ClientState where
  -- session-level attributes, reset by `_reset_attributes`
  channels : List (String × Channel)
  users : List (String × User)
  receive_buffer : String
  nickname : String
  network : Option String
  -- connection-level attributes, reset by `_reset_connection_attributes`
  connection : Option Conn
  encoding : Option String
  has_quit : Bool
  autojoin_channels : List String
  reconnect_attempts : Nat
  -- identity fields set in `__init__` / `_sync_user`
  username : Option String
  realname : Option String
  hostname : Option String
deriving DecidableEq, Repr

/-- The `RECONNECT_*` class attributes. -/
structure Config where
  on_error : Bool
  max_attempts : Option Nat
  delayed : Bool
  delays : List Nat
deriving DecidableEq, Repr

/-- The class defaults of `BasicClient`. -/
def defaultConfig : Config :=
  { on_error := true, max_attempts := some 3, delayed := true
    delays := [0, 30, 120, 600] }

def UNREGISTERED_NICKNAME : String := "<unregistered>"

/-- `protocol.DEFAULT_PORT` (external constant; its value is opaque to the
claims, 6667 is the conventional IRC value). -/
def DEFAULT_PORT : Nat := 6667

/-- `protocol.DEFAULT_ENCODING` (external constant). -/
def DEFAULT_ENCODING : String := "utf-8"

/-- `_reset_attributes`: resets record keeping, buffer, nickname, network. -/
def reset_attributes (st : ClientState) : ClientState :=
  { st with channels := [], users := [], receive_buffer := ""
            nickname := UNREGISTERED_NICKNAME, network := none }

/-- `_reset_connection_attributes`. -/
def reset_connection_attributes (st : ClientState) : ClientState :=
  { st with connection := none, encoding := none, has_quit := false
            autojoin_channels := [], reconnect_attempts := 0 }

/-- `__init__(nickname)` with default username/realname. -/
def mkClient (nickname : String) : ClientState :=
  { channels := [], users := [], receive_buffer := ""
    nickname := UNREGISTERED_NICKNAME, network := none
    connection := none, encoding := none, has_quit := false
    autojoin_channels := [], reconnect_attempts := 0
    username := some (strLower nickname), realname := some nickname
    hostname := none }

/-- The `connected` property: `self.connection and self.connection.connected`. -/
def connectedB (st : ClientState) : Bool :=
  match st.connection with
  | some c => c.connected
  | none => false

/-- Effect of `self.connection.disconnect()` on the transport handle. -/
def closeConn (st : ClientState) : ClientState :=
  { st with connection := st.connection.map (fun c => { c with connected := false }) }


/-! ## Registry operations (`Internal database management`) -/

/-- `_create_channel`. -/
def create_channel (st : ClientState) (channel : String) : ClientState :=
  { st with channels := alSet st.channels channel { users := [] } }

/-- `_destroy_channel`.  The source evaluates
`self.channels[channel]['users'][:]`: a `KeyError` if the channel is
absent, otherwise the slice of a `set`, which raises `TypeError` before
any member is visited. -/
def destroy_channel (st : ClientState) (channel : String) : ClientState × Option PyErr :=
  match alGet st.channels channel with
  | none => (st, some .keyError)
  | some _ => (st, some .typeError)

/-- `_create_user`. -/
def create_user (st : ClientState) (nickname : String) : ClientState :=
  let u : User := { nickname := nickname, username := none, realname := none, hostname := none }
  { st with users := alSet st.users nickname u }

/-- A metadata patch handed to `_sync_user`: an outer `some` means the
dict key is present, the inner option is the (possibly `None`) value. -/
structure Metadata where
  nickname : Option String := none
  username : Option (Option String) := none
  realname : Option (Option String) := none
  hostname : Option (Option String) := none
deriving DecidableEq, Repr

/-- Python `self.users[nick].update(metadata)`. -/
def applyMetadata (u : User) (m : Metadata) : User :=
  { nickname := m.nickname.getD u.nickname
    username := m.username.getD u.username
    realname := m.realname.getD u.realname
    hostname := m.hostname.getD u.hostname }

/-- `_sync_user`.  Returns early (complete no-op) when the nickname
contains a domain-style separator; otherwise creates the user if absent,
mirrors username/hostname into the local identity when the nickname is
the client's own (default `is_same_nick` is string equality), and merges
the patch into the stored entry. -/
def sync_user (st : ClientState) (nick : String) (metadata : Metadata) : ClientState :=
  if pyIn '.' nick then st
  else
    let st₁ := if (alGet st.users nick).isSome then st else create_user st nick
    let st₂ :=
      if st₁.nickname == nick then
        { st₁ with username := metadata.username.getD st₁.username
                   hostname := metadata.hostname.getD st₁.hostname }
      else st₁
    match alGet st₂.users nick with
    | some u => { st₂ with users := alSet st₂.users nick (applyMetadata u metadata) }
    | none => st₂

/-- The per-channel body of `_rename_user`'s loop: when the old nickname
is a member, discard it and add the new one. -/
def renameCh (user new : String) (p : String × Channel) : String × Channel :=
  if p.2.users.contains user then (p.1, { users := setAdd new (setDiscard user p.2.users) })
  else p

/-- `_rename_user`.  Moves the entry (or creates a fresh one), then for
every channel containing the old nickname discards it and adds the new
one. -/
def rename_user (st : ClientState) (user new : String) : ClientState :=
  let st₁ :=
    match alGet st.users user with
    | some u => { st with users := alErase (alSet st.users new ({ u with nickname := new })) user }
    | none => create_user st new
  { st₁ with channels := st₁.channels.map (renameCh user new) }

/-- `_destroy_user`.  Removes the nickname from the given channel (or all
channels), then deletes the user entry unless a common channel remains;
`del self.users[nickname]` raises `KeyError` when the entry is absent, at
which point the member-set removals have already happened. -/
def destroy_user (st : ClientState) (nickname : String) (channel : Option String) :
    ClientState × Option PyErr :=
  match channel with
  | some c =>
    match alGet st.channels c with
    | none => (st, some .keyError)
    | some _ =>
      let st₁ := { st with channels := st.channels.map (fun p =>
        if p.1 == c then (p.1, { users := setDiscard nickname p.2.users }) else p) }
      if st₁.channels.any (fun p => p.2.users.contains nickname) then (st₁, none)
      else if (alGet st₁.users nickname).isSome then
        ({ st₁ with users := alErase st₁.users nickname }, none)
      else (st₁, some .keyError)
  | none =>
    let st₁ := { st with channels := st.channels.map (fun p =>
      (p.1, { users := setDiscard nickname p.2.users })) }
    if (alGet st₁.users nickname).isSome then
      ({ st₁ with users := alErase st₁.users nickname }, none)
    else (st₁, some .keyError)


/-- The member set of channel `k` (empty when the channel is unknown). -/
def membersOf (st : ClientState) (k : String) : List String :=
  match alGet st.channels k with
  | some ch => ch.users
  | none => []

/-- The registry operations the core defines. -/
inductive RegOp where
  | createChannel (channel : String)
  | destroyChannel (channel : String)
  | createUser (nickname : String)
  | syncUser (nickname : String) (metadata : Metadata)
  | renameUser (old new : String)
  | destroyUser (nickname : String) (channel : Option String)

/-- Apply one registry operation; an operation that raises leaves behind
the state as mutated up to the raise point. -/
def applyOp (st : ClientState) : RegOp → ClientState
  | .createChannel c => create_channel st c
  | .destroyChannel c => (destroy_channel st c).1
  | .createUser n => create_user st n
  | .syncUser n m => sync_user st n m
  | .renameUser a b => rename_user st a b
  | .destroyUser n ch => (destroy_user st n ch).1

/-- Apply a sequence of registry operations in order. -/
def applyOps (ops : List RegOp) (st : ClientState) : ClientState :=
  ops.foldl applyOp st

/-- No dangling references: every nickname in any channel's member set is
a key of the user table. -/
def noDangling (st : ClientState) : Bool :=
  st.channels.all (fun p => p.2.users.all (fun n => (alGet st.users n).isSome))


/-! ## Reconnect policy -/

/-- `_reconnect_delay`.  `none` stands for an `IndexError`
(`RECONNECT_DELAYS[self._reconnect_attempts]` out of range, or
`RECONNECT_DELAYS[-1]` on an empty schedule). -/
def reconnect_delay (cfg : Config) (attempts : Nat) : Option Nat :=
  if cfg.on_error && cfg.delayed then
    if cfg.delays.length < attempts then cfg.delays.getLast?
    else cfg.delays.get? attempts
  else some 0

/-- Observable outcome of one `on_disconnect(expected=False)` call. -/
inductive DiscOutcome where
  | scheduled (delay : Option Nat)
  | givingUp
deriving DecidableEq, Repr

/-- The reconnect decision of `on_disconnect(expected=False)` at the level
of the attempt counter: the delay is computed from the counter before the
increment; otherwise the terminal giving-up condition is logged and the
counter is untouched. -/
def on_disconnect_step (cfg : Config) (attempts : Nat) : DiscOutcome × Nat :=
  if cfg.on_error &&
      (match cfg.max_attempts with
       | none => true
       | some m => decide (attempts < m)) then
    (.scheduled (reconnect_delay cfg attempts), attempts + 1)
  else (.givingUp, attempts)

/-- The outcomes of `n` consecutive unexpected disconnects starting from
the given attempt counter (no successful `on_connect` in between, so the
counter is never reset). -/
def unexpected_disconnects (cfg : Config) : Nat → Nat → List DiscOutcome
  | 0, _ => []
  | n + 1, attempts =>
    let r := on_disconnect_step cfg attempts
    r.1 :: unexpected_disconnects cfg n r.2


/-! ## Connection supervisor (`connect` / `disconnect` / `on_disconnect`)

`connect`, `disconnect` and the base `on_disconnect` call each other
(`disconnect` invokes the hook, which on an unexpected disconnect calls
`connect(reconnect=True)`), so the three are embedded as a mutual
recursion on an explicit fuel; running out of fuel stands for Python's
`RecursionError`.  The `time.sleep` between scheduling and reconnecting
has no state effect; a failing `_reconnect_delay` lookup raises
`IndexError`. -/

/-- Python falsiness of an optional string (`None` or `''`). -/
def strFalsy : Option String → Bool
  | none => true
  | some s => s == ""

/-- Python falsiness of an optional port number (`None` or `0`). -/
def natFalsy : Option Nat → Bool
  | none => true
  | some n => n == 0

/-- `_connect`: on a fresh connect records the auto-join list and builds
a new transport (falsy port replaced by the default) with the requested
encoding; on a reconnect the existing transport is reused when present;
then the transport is connected and the data/error callbacks are
registered (no state effect). -/
def iconnect (st : ClientState) (hostname : Option String) (port : Option Nat)
    (reconnect : Bool) (channels : List String) (encoding : String) : ClientState :=
  let st₁ := if !reconnect then { st with autojoin_channels := channels } else st
  let st₂ :=
    if !reconnect || st₁.connection.isNone then
      { st₁ with
          connection := some { hostname := hostname
                               port := if natFalsy port then DEFAULT_PORT else port.getD DEFAULT_PORT
                               connected := false }
          encoding := some encoding }
    else st₁
  { st₂ with connection := st₂.connection.map (fun c => { c with connected := true }) }

mutual

/-- `connect(hostname, port, reconnect)` (with the keyword arguments left
at their defaults, as in the reconnect path): raises `ValueError` when
hostname or port is falsy and this is not a reconnect; otherwise first
disconnects if connected, resets the connection attributes on a fresh
connect, and establishes the transport. -/
def connectF : Nat → Config → ClientState → Option String → Option Nat → Bool →
    ClientState × Option PyErr
  | 0, _, st, _, _, _ => (st, some .recursionError)
  | fuel + 1, cfg, st, hostname, port, reconnect =>
    if (strFalsy hostname || natFalsy port) && !reconnect then (st, some .valueError)
    else
      match (if connectedB st then disconnectF fuel cfg st else (st, none)) with
      | (st₁, some e) => (st₁, some e)
      | (st₁, none) =>
        let st₂ := if !reconnect then reset_connection_attributes st₁ else st₁
        (iconnect st₂ hostname port reconnect [] DEFAULT_ENCODING, none)

/-- `disconnect()`: when connected, closes the transport, invokes the
disconnect hook with the quit flag, then resets the session-level
attributes; a no-op otherwise. -/
def disconnectF : Nat → Config → ClientState → ClientState × Option PyErr
  | 0, _, st => (st, some .recursionError)
  | fuel + 1, cfg, st =>
    if connectedB st then
      match onDisconnectF fuel cfg (closeConn st) (closeConn st).has_quit with
      | (st₂, some e) => (st₂, some e)
      | (st₂, none) => (reset_attributes st₂, none)
    else (st, none)

/-- The base `on_disconnect(expected)`: on an unexpected disconnect with
reconnection enabled and attempts below the maximum, computes the delay
(from the counter before incrementing), increments the counter, sleeps
and calls `connect(reconnect=True)`; otherwise it only logs (giving up,
or nothing when expected). -/
def onDisconnectF : Nat → Config → ClientState → Bool → ClientState × Option PyErr
  | 0, _, st, _ => (st, some .recursionError)
  | fuel + 1, cfg, st, expected =>
    if expected then (st, none)
    else if cfg.on_error &&
        (match cfg.max_attempts with
         | none => true
         | some m => decide (st.reconnect_attempts < m)) then
      match reconnect_delay cfg st.reconnect_attempts with
      | none => (st, some .indexError)
      | some _ =>
        connectF fuel cfg ({ st with reconnect_attempts := st.reconnect_attempts + 1 })
          none none true
    else (st, none)

end

/-- `connect` with enough fuel for every cycle the source can actually
take (the hook's inner `connect` never re-enters `disconnect`, because
the transport was closed first). -/
def connect (cfg : Config) (st : ClientState) (hostname : Option String)
    (port : Option Nat) (reconnect : Bool) : ClientState × Option PyErr :=
  connectF 6 cfg st hostname port reconnect

/-- `disconnect` with the same fuel convention. -/
def disconnect (cfg : Config) (st : ClientState) : ClientState × Option PyErr :=
  disconnectF 6 cfg st


/-! ## Dispatch loop

The byte framing is owned by the external codec (`_has_message` /
`_parse_message` are implemented outside this source file), so the
receive buffer's decodable content is represented directly as the list of
messages the codec would extract, in order. -/

/-- A protocol command: a string or a numeric. -/
inductive Command where
  | num (n : Nat)
  | str (s : String)
deriving DecidableEq, Repr

/-- The message shape consumed by dispatch. -/
structure Message where
  source : Option String
  command : Command
  params : List String
  valid : Bool
  raw : String
deriving DecidableEq, Repr

/-- Python `str.zfill(3)` on a non-negative numeral. -/
def zfill3 (s : String) : String :=
  if s.length < 3 then String.mk (List.replicate (3 - s.length) '0') ++ s else s

/-- The handler name `on_raw` derives from a command:
`'on_raw_' + cmd.lower()`, numerics zero-padded to width 3. -/
def handlerName (c : Command) : String :=
  "on_raw_" ++ strLower (match c with
    | .num n => zfill3 (toString n)
    | .str s => s)

/-- A table of overridden handlers: `hasattr`/`getattr` lookup by derived
name.  A handler may fail with an arbitrary error value. -/
def HandlerTable : Type := String → Option (Message → Except String Unit)

/-- The body of `on_raw`'s `try` block: the resolved handler is invoked
with the message; an absent handler falls back to `on_unknown`, which
only logs. -/
def invoke_handler (table : HandlerTable) (m : Message) : Except String Unit :=
  match table (handlerName m.command) with
  | some h => h m
  | none => Except.ok ()

/-- `on_raw`: any error raised by the resolved handler is caught and
logged (`except: self.logger.exception(...)`); the caught error is the
returned option and nothing propagates. -/
def on_raw (table : HandlerTable) (m : Message) : Option String :=
  match invoke_handler table m with
  | Except.ok _ => none
  | Except.error e => some e

/-- `on_data`'s dispatch loop: while a complete message is buffered,
extract it and route it through `on_raw`.  Returns each routed message
with the error its handler raised, if any. -/
def on_data (table : HandlerTable) : List Message → List (Message × Option String)
  | [] => []
  | m :: rest => (m, on_raw table m) :: on_data table rest

/-- A PRIVMSG message for the C6 scenario. -/
def privmsgMessage : Message :=
  { source := some "alice!a@host", command := .str "PRIVMSG"
    params := ["#test", "hello"], valid := true
    raw := ":alice!a@host PRIVMSG #test :hello" }

/-- A PING message for the C6 scenario. -/
def pingMessage : Message :=
  { source := none, command := .str "PING"
    params := ["server"], valid := true, raw := "PING :server" }

/-- A handler table whose PRIVMSG hook raises and whose PING hook
succeeds. -/
def faultyTable : HandlerTable := fun name =>
  if name == "on_raw_privmsg" then some (fun _ => Except.error "boom")
  else if name == "on_raw_ping" then some (fun _ => Except.ok ())
  else none


/-! ## Pool multiplexer (`ClientPool`)

`handle_message` walks a persistent `itertools.cycle` over the client
set: the scan starts at the cursor left by the previous call and the
cursor ends up just after the serviced client. -/

/-- Pool state: the stable iteration order over the clients and the
cyclic cursor (the position the next scan starts from). -/
structure PoolState where
  clients : List String
  cursor : Nat
deriving DecidableEq, Repr

/-- Scan the cyclic order, starting at `start`, for at most `fuel` steps,
for the first client with a pending message; returns its index. -/
def firstReadyAux (pending : String → Bool) (clients : List String) :
    Nat → Nat → Option Nat
  | _, 0 => none
  | start, fuel + 1 =>
    let i := start % clients.length
    if pending (clients.getD i "") then some i
    else firstReadyAux pending clients (start + 1) fuel

/-- `ClientPool.handle_message`: raises `NoMessageAvailable` (here
`none`) when no client has a pending message; otherwise services the
first pending client encountered continuing the cycle from the stored
cursor, and leaves the cursor just after it. -/
def handle_message (pending : String → Bool) (p : PoolState) :
    Option (String × PoolState) :=
  if p.clients.any pending then
    match firstReadyAux pending p.clients p.cursor p.clients.length with
    | some i =>
      some (p.clients.getD i "", { clients := p.clients, cursor := (i + 1) % p.clients.length })
    | none => none
  else none

/-- The pending predicate of the C7 scenario: only A and C have
messages. -/
def pendingAC : String → Bool := fun s => s == "A" || s == "C"

/-- The C7 pool: sessions A, B, C in cyclic order, cursor at the
start. -/
def poolABC : PoolState := { clients := ["A", "B", "C"], cursor := 0 }


/-! ## Sample states for concrete evaluations -/

/-- The user entry `_create_user` makes for "alice". -/
def aliceUser : User :=
  { nickname := "alice", username := none, realname := none, hostname := none }

/-- A registry holding channel `#test` with member `alice`. -/
def stC1 : ClientState :=
  { mkClient "alice" with
      channels := [("#test", { users := ["alice"] })]
      users := [("alice", aliceUser)] }


/-! ## Claim theorems -/

/-- **C1.** The claim (and the spec's intent) is that `destroyChannel`
iterates a snapshot of the member set and completes without error.  The
source instead evaluates `self.channels[channel]['users'][:]` — the slice
of a `set` — which raises `TypeError` on every call with an existing
channel, before any member is destroyed and before the channel entry is
removed.  This theorem evaluates the code at a failing input: a registry
containing channel `#test` with member `alice`. -/
theorem destroy_channel_raises_type_error :
    destroy_channel stC1 "#test" = (stC1, some PyErr.typeError) := rfl

/-- **C2.** `reconnectDelay()` returns 0 when backoff-on-error is disabled
or undelayed reconnection is configured; otherwise it returns the schedule
entry at index `i` for every `i` within the schedule, and the schedule's
last entry for every attempt index `i` beyond the schedule length.  (The
source compares with `>`, so at `i` exactly equal to the schedule length —
a point the claim does not speak about — it raises `IndexError`.) -/
theorem reconnect_delay_schedule (cfg : Config) (i : Nat) :
    ((cfg.on_error && cfg.delayed) = false → reconnect_delay cfg i = some 0) ∧
    ((cfg.on_error && cfg.delayed) = true →
      (∀ h : i < cfg.delays.length,
        reconnect_delay cfg i = some (cfg.delays.get ⟨i, h⟩)) ∧
      (∀ hne : cfg.delays ≠ [], cfg.delays.length < i →
        reconnect_delay cfg i = some (cfg.delays.getLast hne))) := by
  refine ⟨fun h => by simp [reconnect_delay, h], fun h => ⟨fun hi => ?_, fun hne hi => ?_⟩⟩
  · have hni : ¬ cfg.delays.length < i := by omega
    simp [reconnect_delay, h, hni, List.get?_eq_get hi]
  · simp [reconnect_delay, h, hi, List.getLast?_eq_getLast cfg.delays hne]

/-- A configuration with backoff-on-error disabled. -/
def cfgNoBackoff : Config :=
  { on_error := false, max_attempts := some 3, delayed := true, delays := [0, 30] }

/-- The configuration of the C8 scenario: max-attempts 2, schedule [0,30]. -/
def cfgTwoAttempts : Config :=
  { on_error := true, max_attempts := some 2, delayed := true, delays := [0, 30] }

/-- Witness for C2: the disabled case, an in-schedule index and a
beyond-schedule index, each at concrete inputs. -/
theorem reconnect_delay_schedule_witness :
    reconnect_delay cfgNoBackoff 5 = some 0 ∧
    reconnect_delay cfgTwoAttempts 1 = some 30 ∧
    reconnect_delay cfgTwoAttempts 7 = some 30 := by
  refine ⟨(reconnect_delay_schedule cfgNoBackoff 5).1 rfl, ?_, ?_⟩
  · exact ((reconnect_delay_schedule cfgTwoAttempts 1).2 rfl).1 (by decide)
  · exact ((reconnect_delay_schedule cfgTwoAttempts 7).2 rfl).2 (by decide) (by decide)

/-- **C8.** With max-attempts 2, schedule `[0, 30]` and attempt counter 0,
three consecutive unexpected disconnects reconnect exactly twice — delays
0 then 30, each computed from the counter before its increment — and the
third logs the terminal giving-up condition without reconnecting (the
counter stays at 2 and no reconnect is scheduled, so the session remains
disconnected). -/
theorem reconnect_gives_up_after_max :
    unexpected_disconnects cfgTwoAttempts 3 0 =
      [.scheduled (some 0), .scheduled (some 30), .givingUp] ∧
    (on_disconnect_step cfgTwoAttempts 2).2 = 2 := by
  decide

/-- No call in the connect/disconnect/hook cycle other than `connect`'s
own argument check can produce the invalid-argument error (the inner
reconnect call always passes `reconnect=True`, so its check is off). -/
theorem supervisor_no_valueError : ∀ fuel cfg,
    (∀ st, (disconnectF fuel cfg st).2 ≠ some PyErr.valueError) ∧
    (∀ st e, (onDisconnectF fuel cfg st e).2 ≠ some PyErr.valueError) ∧
    (∀ st h p, (connectF fuel cfg st h p true).2 ≠ some PyErr.valueError) := by
  intro fuel
  induction fuel with
  | zero =>
    intro cfg
    refine ⟨fun st => by simp [disconnectF], fun st e => by simp [onDisconnectF],
      fun st h p => by simp [connectF]⟩
  | succ n ih =>
    intro cfg
    obtain ⟨ihd, iho, ihc⟩ := ih cfg
    refine ⟨fun st => ?_, fun st e => ?_, fun st h p => ?_⟩
    · rw [disconnectF]
      split
      · split
        · rename_i st₂ e₂ heq
          have hne := iho (closeConn st) (closeConn st).has_quit
          rw [heq] at hne
          simpa using hne
        · simp
      · simp
    · rw [onDisconnectF]
      split
      · simp
      · split
        · split
          · simp
          · exact ihc _ none none
        · simp
    · rw [connectF]
      split
      · rename_i hcond
        simp at hcond
      · split
        · rename_i st₁ e₁ heq
          by_cases hc : connectedB st = true
          · rw [if_pos hc] at heq
            have hne := ihd st
            rw [heq] at hne
            simpa using hne
          · rw [if_neg hc] at heq
            injection heq with h1 h2
            cases h2
        · simp

/-- **C5 (amended).** `connect(host, port, reconnect)` fails with the
invalid-argument error exactly when at least one of host and port is
unset (falsy) and reconnect is false — the source raises when
`(not hostname or not port) and not reconnect` — and on that failure no
client state is mutated. -/
theorem connect_invalid_argument (cfg : Config) (st : ClientState)
    (h : Option String) (p : Option Nat) (r : Bool) :
    (((strFalsy h || natFalsy p) && !r) = true →
      connect cfg st h p r = (st, some PyErr.valueError)) ∧
    (((strFalsy h || natFalsy p) && !r) = false →
      (connect cfg st h p r).2 ≠ some PyErr.valueError) := by
  constructor
  · intro hg
    rw [connect, show (6 : Nat) = 5 + 1 from rfl, connectF, if_pos hg]
  · intro hg
    rw [connect, show (6 : Nat) = 5 + 1 from rfl, connectF]
    split
    · rename_i hcond
      rw [hg] at hcond
      cases hcond
    · split
      · rename_i st₁ e₁ heq
        by_cases hc : connectedB st = true
        · rw [if_pos hc] at heq
          have hne := (supervisor_no_valueError 5 cfg).1 st
          rw [heq] at hne
          simpa using hne
        · rw [if_neg hc] at heq
          injection heq with h1 h2
          cases h2
      · simp

/-- Witness for C5: a connect with everything unset fails without
touching the state, and a fully specified connect does not produce the
invalid-argument error. -/
theorem connect_invalid_argument_witness :
    connect defaultConfig (mkClient "alice") none none false =
      (mkClient "alice", some PyErr.valueError) ∧
    (connect defaultConfig (mkClient "alice") (some "irc.example.com") (some 6667) false).2 ≠
      some PyErr.valueError :=
  ⟨(connect_invalid_argument defaultConfig (mkClient "alice") none none false).1 rfl,
   (connect_invalid_argument defaultConfig (mkClient "alice") (some "irc.example.com")
      (some 6667) false).2 rfl⟩

/-- Counterexample to C5 as stated: with the hostname *set* and only the
port unset — so host and port are not "both unset" — `connect` still
raises the invalid-argument error; the source checks
`not hostname or not port`, not their conjunction. -/
theorem connect_fails_with_only_port_unset :
    (connect defaultConfig (mkClient "alice") (some "irc.example.com") none false).2 =
      some PyErr.valueError ∧
    strFalsy (some "irc.example.com") = false := ⟨rfl, rfl⟩

/-- The session-level attributes are back at their construction-time
defaults (`_reset_attributes`). -/
def SessionLevelReset (r : ClientState) : Prop :=
  r.channels = [] ∧ r.users = [] ∧ r.receive_buffer = "" ∧
  r.nickname = UNREGISTERED_NICKNAME ∧ r.network = none

/-- The connection-level attributes are untouched: the transport handle
is retained (merely marked disconnected by the transport close), and
encoding, quit flag, auto-join list, reconnect counter and the identity
fields keep their values. -/
def ConnectionLevelIntact (st r : ClientState) : Prop :=
  r.connection = st.connection.map (fun c => { c with connected := false }) ∧
  r.encoding = st.encoding ∧ r.has_quit = st.has_quit ∧
  r.autojoin_channels = st.autojoin_channels ∧
  r.reconnect_attempts = st.reconnect_attempts ∧
  r.username = st.username ∧ r.realname = st.realname ∧ r.hostname = st.hostname

/-- **C10 (amended).** `disconnect()` while not connected changes no
state.  While connected *with the quit flag set* it resets exactly the
session-level state (channel table, user table, receive buffer, nickname,
network tag) and leaves every connection-level attribute unchanged —
retaining the transport handle, which is only marked disconnected by the
transport close.  (With the quit flag unset the base disconnect hook
additionally runs the reconnect policy, which mutates the
reconnect-attempt counter; see the counterexample.) -/
theorem disconnect_resets_session_state (cfg : Config) (st : ClientState) :
    (connectedB st = false → disconnect cfg st = (st, none)) ∧
    (connectedB st = true → st.has_quit = true →
      SessionLevelReset (disconnect cfg st).1 ∧
      ConnectionLevelIntact st (disconnect cfg st).1 ∧
      (disconnect cfg st).2 = none) := by
  constructor
  · intro h1
    rw [disconnect, show (6 : Nat) = 5 + 1 from rfl, disconnectF,
      if_neg (by simp [h1])]
  · intro h1 h2
    have hq : (closeConn st).has_quit = true := h2
    have key : disconnect cfg st = (reset_attributes (closeConn st), none) := by
      rw [disconnect, show (6 : Nat) = 5 + 1 from rfl, disconnectF, if_pos h1,
        show (5 : Nat) = 4 + 1 from rfl, onDisconnectF, if_pos hq]
    rw [key]
    exact ⟨⟨rfl, rfl, rfl, rfl, rfl⟩, ⟨rfl, rfl, rfl, rfl, rfl, rfl, rfl, rfl⟩, rfl⟩

/-- A connected client that has voluntarily quit (quit flag set). -/
def stQuit : ClientState :=
  { mkClient "alice" with
      connection := some { hostname := some "irc.example.com", port := 6667, connected := true }
      has_quit := true, encoding := some "utf-8"
      autojoin_channels := ["#test"]
      channels := [("#test", { users := ["alice"] })]
      users := [("alice", aliceUser)] }

/-- Witness for C10: the amended claim applied to a concrete connected,
cleanly-quitting client. -/
theorem disconnect_resets_session_state_witness :
    connectedB stQuit = true ∧ stQuit.has_quit = true ∧
    (SessionLevelReset (disconnect defaultConfig stQuit).1 ∧
      ConnectionLevelIntact stQuit (disconnect defaultConfig stQuit).1 ∧
      (disconnect defaultConfig stQuit).2 = none) :=
  ⟨rfl, rfl, (disconnect_resets_session_state defaultConfig stQuit).2 rfl rfl⟩

/-- The same client but with the quit flag unset (the only value the
source itself ever assigns). -/
def stNoQuit : ClientState := { stQuit with has_quit := false }

/-- Counterexample to C10 as stated: `disconnect()` while connected with
the quit flag unset runs the base disconnect hook's reconnect branch,
which increments the reconnect-attempt counter — a connection-level
attribute the claim says is left unchanged. -/
theorem disconnect_mutates_reconnect_counter :
    stNoQuit.reconnect_attempts = 0 ∧
    (disconnect defaultConfig stNoQuit).1.reconnect_attempts = 1 := ⟨rfl, rfl⟩

/-- Every routed message keeps its identity: `on_raw` never propagates,
so the loop's output lists exactly the buffered messages in order. -/
theorem on_data_fst (table : HandlerTable) (msgs : List Message) :
    (on_data table msgs).map Prod.fst = msgs := by
  induction msgs with
  | nil => rfl
  | cons m rest ih => simp [on_data, ih]

/-- **C6.** Any error raised by the resolved handler during routing is
caught and does not propagate: for every handler table and every buffered
message list, every message is extracted and routed, in order, regardless
of handler faults.  Concretely, a PRIVMSG hook that raises does not
prevent the following PING from being dispatched (its error is logged
against PRIVMSG, and PING is handled without error). -/
theorem dispatch_isolates_handler_faults :
    (∀ (table : HandlerTable) (msgs : List Message),
      (on_data table msgs).map Prod.fst = msgs) ∧
    on_data faultyTable [privmsgMessage, pingMessage] =
      [(privmsgMessage, some "boom"), (pingMessage, none)] := by
  exact ⟨on_data_fst, rfl⟩

/-- A successful cyclic scan returns the index of a pending client, and
the index is in range when the client list is non-empty. -/
theorem firstReadyAux_spec (pending : String → Bool) (clients : List String) :
    ∀ fuel start i, 0 < clients.length →
      firstReadyAux pending clients start fuel = some i →
      pending (clients.getD i "") = true ∧ i < clients.length := by
  intro fuel
  induction fuel with
  | zero => intro start i _ h; simp [firstReadyAux] at h
  | succ n ih =>
    intro start i hlen h
    rw [firstReadyAux] at h
    split at h
    · rename_i hp
      cases h
      exact ⟨hp, Nat.mod_lt _ hlen⟩
    · exact ih (start + 1) i hlen h

/-- **C7.** The scan for a ready session resumes from the stored cursor,
not from the start of the set: whenever `handle_message` services `s`,
`s` has a pending message, `s` sits at some index `i` of the unchanged
client list, and the cursor is left at the position just after `i` — so
the next call continues the cycle there.  With sessions A, B, C in cyclic
order and only A and C pending, two consecutive calls service A then C
(never A twice), the cursor moving 0 → 1 → 0. -/
theorem pool_round_robin_fairness :
    (∀ (pending : String → Bool) (p : PoolState) (s : String) (p' : PoolState),
      handle_message pending p = some (s, p') →
      pending s = true ∧ ∃ i, i < p.clients.length ∧ s = p.clients.getD i "" ∧
        p'.clients = p.clients ∧ p'.cursor = (i + 1) % p.clients.length) ∧
    (handle_message pendingAC poolABC =
        some ("A", { clients := ["A", "B", "C"], cursor := 1 }) ∧
      handle_message pendingAC { clients := ["A", "B", "C"], cursor := 1 } =
        some ("C", { clients := ["A", "B", "C"], cursor := 0 })) := by
  constructor
  · intro pending p s p' h
    rw [handle_message] at h
    split at h
    · rename_i hany
      have hlen : 0 < p.clients.length := by
        rcases List.any_eq_true.mp hany with ⟨x, hx, _⟩
        exact List.length_pos.mpr (List.ne_nil_of_mem hx)
      split at h
      · rename_i i hfr
        have hspec := firstReadyAux_spec pending p.clients p.clients.length p.cursor i hlen hfr
        have hinj := Option.some.inj h
        have hs : s = p.clients.getD i "" := (congrArg Prod.fst hinj).symm
        have hp' : p' = { clients := p.clients, cursor := (i + 1) % p.clients.length } :=
          (congrArg Prod.snd hinj).symm
        subst hs; subst hp'
        exact ⟨hspec.1, i, hspec.2, rfl, rfl, rfl⟩
      · simp at h
    · simp at h
  · exact ⟨rfl, rfl⟩

/-! ### Association-list and member-set lemmas -/

theorem alGet_alSet_self (l : List (String × α)) (k : String) (v : α) :
    alGet (alSet l k v) k = some v := by
  induction l with
  | nil => simp [alSet, alGet]
  | cons p rest ih =>
    rw [alSet]
    by_cases h : p.1 == k
    · rw [if_pos h, alGet]
      simp
    · rw [if_neg h, alGet, if_neg h]
      exact ih

theorem alGet_alSet_ne (l : List (String × α)) (k k' : String) (v : α) (hne : k ≠ k') :
    alGet (alSet l k v) k' = alGet l k' := by
  induction l with
  | nil => simp [alSet, alGet, hne]
  | cons p rest ih =>
    rw [alSet]
    by_cases h : p.1 == k
    · have hk : p.1 = k := by simpa using h
      rw [if_pos h, alGet, alGet]
      simp [hk, hne]
    · rw [if_neg h, alGet, alGet]
      by_cases h2 : p.1 == k' <;> simp [h2, ih]

theorem alGet_alErase_ne (l : List (String × α)) (k k' : String) (hne : k ≠ k') :
    alGet (alErase l k) k' = alGet l k' := by
  induction l with
  | nil => rfl
  | cons p rest ih =>
    rw [alErase]
    by_cases h : p.1 == k
    · have hk : p.1 = k := by simpa using h
      rw [if_pos h, alGet]
      simp [hk, hne, ih]
    · rw [if_neg h, alGet, alGet]
      by_cases h2 : p.1 == k' <;> simp [h2, ih]

theorem mem_alSet {l : List (String × α)} {k : String} {v : α} {p : String × α}
    (hp : p ∈ alSet l k v) : p = (k, v) ∨ p ∈ l := by
  induction l with
  | nil =>
    simp [alSet] at hp
    exact Or.inl hp
  | cons q rest ih =>
    rw [alSet] at hp
    by_cases h : q.1 == k
    · rw [if_pos h] at hp
      rcases List.mem_cons.mp hp with h1 | h2
      · exact Or.inl h1
      · exact Or.inr (List.mem_cons_of_mem q h2)
    · rw [if_neg h] at hp
      rcases List.mem_cons.mp hp with h1 | h2
      · exact Or.inr (h1 ▸ List.mem_cons_self q rest)
      · rcases ih h2 with h3 | h4
        · exact Or.inl h3
        · exact Or.inr (List.mem_cons_of_mem q h4)

theorem contains_iff (l : List String) (x : String) : l.contains x = true ↔ x ∈ l := by
  induction l with
  | nil => simp [List.contains]
  | cons a rest ih => simp [List.contains]

theorem mem_setAdd (x y : String) (l : List String) :
    y ∈ setAdd x l ↔ y = x ∨ y ∈ l := by
  rw [setAdd]
  by_cases h : l.contains x
  · rw [if_pos h]
    have hx : x ∈ l := (contains_iff l x).mp h
    constructor
    · exact fun hy => Or.inr hy
    · rintro (rfl | hy)
      exacts [hx, hy]
  · rw [if_neg h]
    simp [List.mem_append, or_comm]

theorem mem_setDiscard (x y : String) (l : List String) :
    y ∈ setDiscard x l ↔ y ∈ l ∧ y ≠ x := by
  simp [setDiscard, List.mem_filter, bne_iff_ne]


/-! ### Frame lemmas for the registry operations -/

theorem destroy_channel_fst (st : ClientState) (c : String) :
    (destroy_channel st c).1 = st := by
  unfold destroy_channel
  cases alGet st.channels c <;> rfl

theorem create_user_channels (st : ClientState) (n : String) :
    (create_user st n).channels = st.channels := rfl

theorem sync_user_channels (st : ClientState) (n : String) (m : Metadata) :
    (sync_user st n m).channels = st.channels := by
  simp only [sync_user, create_user]
  repeat' split
  all_goals rfl

theorem rename_user_channels (st : ClientState) (user new : String) :
    (rename_user st user new).channels = st.channels.map (renameCh user new) := by
  simp only [rename_user]
  cases h : alGet st.users user <;> simp [h, create_user]

theorem renameCh_key (user new : String) (p : String × Channel) :
    (renameCh user new p).1 = p.1 := by
  rw [renameCh]
  split <;> rfl

theorem destroy_user_members_empty (st : ClientState) (n : String) (ch : Option String)
    (h : ∀ p ∈ st.channels, p.2.users = []) :
    ∀ p ∈ (destroy_user st n ch).1.channels, p.2.users = [] := by
  intro p hp
  cases ch with
  | none =>
    simp only [destroy_user] at hp
    split at hp <;>
    · rcases List.mem_map.mp hp with ⟨q, hq, rfl⟩
      simp [setDiscard, h q hq]
  | some c =>
    simp only [destroy_user] at hp
    cases halt : alGet st.channels c with
    | none =>
      simp only [halt] at hp
      exact h p hp
    | some chv =>
      simp only [halt] at hp
      have hmap : ∀ q ∈ st.channels, p = (fun r =>
          if r.1 == c then (r.1, ({ users := setDiscard n r.2.users } : Channel)) else r) q →
          p.2.users = [] := by
        intro q hq hpq
        rw [hpq]
        dsimp only
        split
        · simp [setDiscard, h q hq]
        · exact h q hq
      split at hp
      · rcases List.mem_map.mp hp with ⟨q, hq, hpq⟩
        exact hmap q hq hpq.symm
      · split at hp
        · rcases List.mem_map.mp hp with ⟨q, hq, hpq⟩
          exact hmap q hq hpq.symm
        · rcases List.mem_map.mp hp with ⟨q, hq, hpq⟩
          exact hmap q hq hpq.symm


/-! ### C3: the no-dangling invariant over operation sequences -/

/-- Each registry operation preserves emptiness of all member sets (the
six core operations never add a member: `renameUser` only substitutes an
existing member, and the other operations only remove or keep). -/
theorem applyOp_members_empty (st : ClientState) (op : RegOp)
    (h : ∀ p ∈ st.channels, p.2.users = []) :
    ∀ p ∈ (applyOp st op).channels, p.2.users = [] := by
  cases op with
  | createChannel c =>
    intro p hp
    simp only [applyOp, create_channel] at hp
    rcases mem_alSet hp with h1 | h2
    · rw [h1]
    · exact h p h2
  | destroyChannel c =>
    intro p hp
    simp only [applyOp] at hp
    rw [destroy_channel_fst] at hp
    exact h p hp
  | createUser n =>
    intro p hp
    exact h p hp
  | syncUser n m =>
    intro p hp
    simp only [applyOp] at hp
    rw [sync_user_channels] at hp
    exact h p hp
  | renameUser a b =>
    intro p hp
    simp only [applyOp] at hp
    rw [rename_user_channels] at hp
    rcases List.mem_map.mp hp with ⟨q, hq, rfl⟩
    have hqe := h q hq
    have hqc : q.2.users.contains a = false := by rw [hqe]; rfl
    simp [renameCh, hqc, hqe]
  | destroyUser n ch =>
    intro p hp
    exact destroy_user_members_empty st n ch h p hp

theorem applyOps_members_empty (ops : List RegOp) :
    ∀ st : ClientState, (∀ p ∈ st.channels, p.2.users = []) →
      ∀ p ∈ (applyOps ops st).channels, p.2.users = [] := by
  induction ops with
  | nil => exact fun st h => h
  | cons op rest ih =>
    exact fun st h => ih (applyOp st op) (applyOp_members_empty st op h)

/-- **C3.** For every sequence of the core registry operations applied to
a freshly constructed client (empty registry), every nickname present in
any channel's member set is also a key of the user table.  (In this
source file none of the six operations ever adds a member to a channel —
member-adding events live in protocol handlers outside the core — so all
member sets stay empty and the invariant holds.) -/
theorem registry_no_dangling (ops : List RegOp) :
    noDangling (applyOps ops (mkClient "alice")) = true := by
  have hempty := applyOps_members_empty ops (mkClient "alice")
    (fun p hp => absurd hp (List.not_mem_nil p))
  simp only [noDangling, List.all_eq_true]
  intro p hp
  rw [hempty p hp]
  intro x hx
  exact absurd hx (List.not_mem_nil x)


/-! ### C4: server identities are not users -/

/-- **C4 (amended).** `syncUser(nickname, patch)` with a nickname
containing the domain-style separator is a complete no-op: user table,
channels and local identity are all unchanged.  (`createUser` and
`renameUser` perform no such guard, so those operations *can* introduce
dotted keys — see the counterexample.) -/
theorem sync_user_server_noop (st : ClientState) (n : String) (m : Metadata)
    (h : pyIn '.' n = true) : sync_user st n m = st := by
  rw [sync_user, if_pos h]

/-- Witness for C4: syncing a server identity against a fresh client
leaves the client untouched. -/
theorem sync_user_server_noop_witness :
    pyIn '.' "irc.example.com" = true ∧
    sync_user (mkClient "alice") "irc.example.com" {} = mkClient "alice" :=
  ⟨by decide, sync_user_server_noop (mkClient "alice") "irc.example.com" {} (by decide)⟩

/-- Counterexample to C4 as stated: `renameUser` has no server-identity
guard, so renaming an existing user to `"x.y"` materializes a user-table
key containing the domain-style separator. -/
theorem rename_user_introduces_dotted_key :
    pyIn '.' "x.y" = true ∧
    (alGet (applyOps [RegOp.createUser "alice", RegOp.renameUser "alice" "x.y"]
      (mkClient "alice")).users "x.y").isSome = true := by
  decide


/-! ### C9: rename round trip -/

theorem renameCh_roundtrip_members (a b : String) (p : String × Channel)
    (hb : b ∉ p.2.users) :
    ∀ n, n ∈ (renameCh b a (renameCh a b p)).2.users ↔ n ∈ p.2.users := by
  intro n
  by_cases ha : p.2.users.contains a = true
  · have haMem : a ∈ p.2.users := (contains_iff _ _).mp ha
    have hinner : renameCh a b p =
        (p.1, ({ users := setAdd b (setDiscard a p.2.users) } : Channel)) := by
      rw [renameCh, if_pos ha]
    rw [hinner, renameCh]
    dsimp only
    have hcb : (setAdd b (setDiscard a p.2.users)).contains b = true := by
      rw [contains_iff]
      exact (mem_setAdd b b _).mpr (Or.inl rfl)
    rw [if_pos hcb]
    dsimp only
    rw [mem_setAdd, mem_setDiscard, mem_setAdd, mem_setDiscard]
    constructor
    · rintro (rfl | ⟨(rfl | ⟨hL, _⟩), hnb⟩)
      · exact haMem
      · exact absurd rfl hnb
      · exact hL
    · intro hL
      by_cases hna : n = a
      · exact Or.inl hna
      · refine Or.inr ⟨Or.inr ⟨hL, hna⟩, ?_⟩
        rintro rfl
        exact hb hL
  · have hinner : renameCh a b p = p := by rw [renameCh, if_neg ha]
    have hcb : ¬ p.2.users.contains b = true := fun hc => hb ((contains_iff _ _).mp hc)
    rw [hinner, renameCh, if_neg hcb]

theorem membersOf_roundtrip_aux (a b : String) :
    ∀ l : List (String × Channel), (∀ p ∈ l, b ∉ p.2.users) → ∀ k n : String,
      ((n ∈ (match alGet ((l.map (renameCh a b)).map (renameCh b a)) k with
             | some ch => ch.users
             | none => [])) ↔
        (n ∈ (match alGet l k with | some ch => ch.users | none => []))) := by
  intro l
  induction l with
  | nil => intro _ k n; rfl
  | cons p rest ih =>
    intro hb k n
    rw [List.map_cons, List.map_cons, alGet, alGet]
    have hkeys : (renameCh b a (renameCh a b p)).1 = p.1 := by
      rw [renameCh_key, renameCh_key]
    by_cases hpk : p.1 == k
    · rw [if_pos (by rw [hkeys]; exact hpk), if_pos hpk]
      exact renameCh_roundtrip_members a b p (hb p (List.mem_cons_self p rest)) n
    · rw [if_neg (by rw [hkeys]; exact hpk), if_neg hpk]
      exact ih (fun q hq => hb q (List.mem_cons_of_mem p hq)) k n

/-- **C9.** In a registry state where nickname `a` exists (with its
stored nickname field `a`), nickname `b` exists nowhere — neither as a
user-table key nor as any channel member, as the no-dangling invariant
guarantees — and `a ≠ b`, `renameUser(a, b)` immediately followed by
`renameUser(b, a)` restores the original entry's fields and every
channel's member set. -/
theorem rename_user_round_trip (st : ClientState) (a b : String) (u : User)
    (hu : alGet st.users a = some u) (hnick : u.nickname = a)
    (hb : alGet st.users b = none) (hab : a ≠ b)
    (hbchan : ∀ p ∈ st.channels, b ∉ p.2.users) :
    alGet (rename_user (rename_user st a b) b a).users a = some u ∧
    ∀ k n : String,
      (n ∈ membersOf (rename_user (rename_user st a b) b a) k ↔ n ∈ membersOf st k) := by
  have h1u : (rename_user st a b).users =
      alErase (alSet st.users b ({ u with nickname := b })) a := by
    simp [rename_user, hu]
  have h1g : alGet (rename_user st a b).users b = some ({ u with nickname := b }) := by
    rw [h1u, alGet_alErase_ne _ a b hab, alGet_alSet_self]
  have h2u : (rename_user (rename_user st a b) b a).users =
      alErase (alSet (rename_user st a b).users a
        ({ ({ u with nickname := b }) with nickname := a })) b := by
    conv =>
      lhs
      rw [rename_user]
    simp [h1g]
  constructor
  · rw [h2u, alGet_alErase_ne _ b a (Ne.symm hab), alGet_alSet_self]
    cases u with
    | mk un uu ur uh =>
      have h3 : un = a := hnick
      rw [h3]
  · have hc2 : (rename_user (rename_user st a b) b a).channels =
        (st.channels.map (renameCh a b)).map (renameCh b a) := by
      rw [rename_user_channels, rename_user_channels]
    intro k n
    simp only [membersOf]
    rw [hc2]
    exact membersOf_roundtrip_aux a b st.channels hbchan k n

/-- Witness for C9: the round trip on a registry holding user `alice` in
channel `#test`, renamed to `bob` and back. -/
theorem rename_user_round_trip_witness :
    alGet stC1.users "alice" = some aliceUser ∧ aliceUser.nickname = "alice" ∧
    alGet stC1.users "bob" = none ∧ "alice" ≠ "bob" ∧
    (∀ p ∈ stC1.channels, "bob" ∉ p.2.users) ∧
    (alGet (rename_user (rename_user stC1 "alice" "bob") "bob" "alice").users "alice" =
        some aliceUser ∧
      ∀ k n : String,
        (n ∈ membersOf (rename_user (rename_user stC1 "alice" "bob") "bob" "alice") k ↔
          n ∈ membersOf stC1 k)) :=
  ⟨rfl, rfl, rfl, by decide, by decide,
    rename_user_round_trip stC1 "alice" "bob" aliceUser rfl rfl rfl (by decide) (by decide)⟩

/-- Witness for C7: the general resume property applied to the first call
of the scenario. -/
theorem pool_round_robin_fairness_witness :
    pendingAC "A" = true ∧ ∃ i, i < poolABC.clients.length ∧
      "A" = poolABC.clients.getD i "" ∧
      (PoolState.mk ["A", "B", "C"] 1).clients = poolABC.clients ∧
      (PoolState.mk ["A", "B", "C"] 1).cursor = (i + 1) % poolABC.clients.length :=
  pool_round_robin_fairness.1 pendingAC poolABC "A"
    { clients := ["A", "B", "C"], cursor := 1 } rfl

end Pydle
